import Mathlib

/-!
Verification of the ER predictive-analytics engine (`predictive_analytics.py`).

The Observation Dataset is modelled as a list of records with natural-number
counts (the data model fixes counts to non-negative integers).  All statistics
are computed over `ℚ`: pandas/numpy float arithmetic is modelled by exact
rational arithmetic, and `round(x, 1)` by round-half-to-even on tenths, which
agrees with CPython on every value that is exactly representable in binary.
The square root used by `Series.std()` is kept abstract as a parameter
`sq : ℚ → ℚ` (applied to the ddof=1 sample variance), since a rational-valued
embedding cannot compute an exact square root; theorems that need it only
assume `sq` maps non-negative inputs to non-negative outputs, which IEEE
`sqrt` satisfies.
-/

/-- The fixed, closed set of department identifiers (`self.departments`). -/
inductive Dept
  | emergency_walkin
  | emergency_ambulance
  | surgery
  | critical_care
  | step_down
deriving DecidableEq

/-- One record of the Observation Dataset: `[session_id, round, <dept columns>]`. -/
structure Obs where
  session_id : ℕ
  round : ℕ
  emergency_walkin : ℕ
  emergency_ambulance : ℕ
  surgery : ℕ
  critical_care : ℕ
  step_down : ℕ
deriving DecidableEq

/-- Column access `historical_data[dept]` for one record. -/
def col : Dept → Obs → ℕ
  | .emergency_walkin, o => o.emergency_walkin
  | .emergency_ambulance, o => o.emergency_ambulance
  | .surgery, o => o.surgery
  | .critical_care, o => o.critical_care
  | .step_down, o => o.step_down

/-- The engine's fixed department list, in source order. -/
def departments : List Dept :=
  [.emergency_walkin, .emergency_ambulance, .surgery, .critical_care, .step_down]

/-- The Historical Store: an immutable columnar dataset, one `Obs` per row. -/
abbrev HistData := List Obs

/-- The column `data[dept]` as rationals. -/
def colVals (data : HistData) (dept : Dept) : List ℚ :=
  data.map fun o => (col dept o : ℚ)

/-- `Series.mean()`. -/
def qmean (l : List ℚ) : ℚ := l.sum / (l.length : ℚ)

/-- The ddof=1 sample variance underlying `Series.std()`. -/
def svar (l : List ℚ) : ℚ :=
  (l.map fun x => (x - qmean l) ^ 2).sum / ((l.length : ℚ) - 1)

/-- Round-half-to-even to an integer, the tie rule CPython's `round` uses. -/
def rhe (q : ℚ) : ℤ :=
  let n : ℤ := Int.floor q
  if q - (n : ℚ) < 1 / 2 then n
  else if 1 / 2 < q - (n : ℚ) then n + 1
  else if n % 2 = 0 then n else n + 1

/-- Python's `round(x, 1)` on the exact rational value. -/
def roundPy1 (q : ℚ) : ℚ := ((rhe (10 * q) : ℚ)) / 10

/-- Insertion into a sorted rational list. -/
def insQ (x : ℚ) : List ℚ → List ℚ
  | [] => [x]
  | y :: ys => if x ≤ y then x :: y :: ys else y :: insQ x ys

/-- Insertion sort, ascending. -/
def isort : List ℚ → List ℚ
  | [] => []
  | x :: xs => insQ x (isort xs)

/-- `np.percentile(l, p)` with the default linear-interpolation method. -/
def percentile (l : List ℚ) (p : ℚ) : ℚ :=
  let s := isort l
  let n := s.length
  let h : ℚ := ((n : ℚ) - 1) * p / 100
  let lo : ℕ := (Int.floor h).toNat
  let a := s.getD lo 0
  let b := s.getD (min (lo + 1) (n - 1)) 0
  a + (h - (lo : ℚ)) * (b - a)

/-- `Series.median()`: middle element, or mean of the two middle elements. -/
def qmedian (l : List ℚ) : ℚ :=
  let s := isort l
  let n := s.length
  if n % 2 = 1 then s.getD (n / 2) 0
  else (s.getD (n / 2 - 1) 0 + s.getD (n / 2) 0) / 2

/-- `Series.min()`. -/
def vmin (l : List ℚ) : ℚ := (isort l).headD 0

/-- `Series.max()`. -/
def vmax (l : List ℚ) : ℚ := (isort l).getLastD 0

/-- `moving_average_forecast(dept, current_round, window)`. -/
def moving_average_forecast (data : HistData) (dept : Dept)
    (current_round window : ℕ) : ℚ :=
  if current_round ≤ 1 then qmean (colVals data dept)
  else
    let recent_data := colVals
      (data.filter fun o =>
        decide (max 1 (current_round - window) ≤ o.round ∧ o.round < current_round))
      dept
    if recent_data.length = 0 then qmean (colVals data dept)
    else qmean recent_data

/-- The two return shapes of `time_based_forecast`: a bare float, or the
dict `{forecast, lower_bound, upper_bound, confidence}`. -/
inductive TBForecast
  | scalar (v : ℚ)
  | band (forecast lower_bound upper_bound confidence : ℚ)
deriving DecidableEq

/-- `time_based_forecast(dept, current_round)`. -/
def time_based_forecast (sq : ℚ → ℚ) (data : HistData) (dept : Dept)
    (current_round : ℕ) : TBForecast :=
  let round_data := colVals (data.filter fun o => o.round == current_round) dept
  if round_data.length = 0 then .scalar (qmean (colVals data dept))
  else
    let mean_forecast := qmean round_data
    let std_forecast :=
      if 1 < round_data.length then sq (svar round_data)
      else mean_forecast * 0.3
    .band mean_forecast (max 0 (mean_forecast - std_forecast))
      (mean_forecast + std_forecast) 0.68

/-- `scipy.stats.linregress` on the point lists `x`, `y`, returning
`(slope, intercept)`; scipy computes both from the uncentered moments. -/
def linregress (x y : List ℚ) : ℚ × ℚ :=
  let xm := qmean x
  let ym := qmean y
  let ssxm := qmean (x.map fun a => a ^ 2) - xm ^ 2
  let ssxym := qmean (List.zipWith (fun a b => a * b) x y) - xm * ym
  let slope := ssxym / ssxm
  (slope, ym - slope * xm)

/-- The `groupby('round')[dept].mean()` of the rows with round in `[lo, hi)`:
one `(round, mean)` point per round present, rounds ascending (pandas sorts
group keys). -/
def group_rounds (data : HistData) (dept : Dept) (lo hi : ℕ) : List (ℕ × ℚ) :=
  ((List.range' lo (hi - lo)).filter fun k => data.any fun o => o.round == k).map
    fun k => (k, qmean (colVals (data.filter fun o => o.round == k) dept))

/-- `trend_forecast(dept, current_round, lookback)`. -/
def trend_forecast (data : HistData) (dept : Dept)
    (current_round lookback : ℕ) : ℚ :=
  if current_round ≤ 2 then moving_average_forecast data dept current_round 3
  else
    let recent_rounds :=
      group_rounds data dept (max 1 (current_round - lookback)) current_round
    if recent_rounds.length < 2 then moving_average_forecast data dept current_round 3
    else
      let x := recent_rounds.map fun g => (g.1 : ℚ)
      let y := recent_rounds.map Prod.snd
      let si := linregress x y
      max 0 (si.1 * (current_round : ℚ) + si.2)

/-- The `methods` sub-dict of an ensemble forecast. -/
structure EnsembleMethods where
  moving_average : ℚ
  time_based : ℚ
  trend : ℚ
deriving DecidableEq

/-- A Forecast Result, the dict returned by `ensemble_forecast`. -/
structure EnsembleResult where
  forecast : ℚ
  lower_bound : ℚ
  upper_bound : ℚ
  methods : EnsembleMethods
deriving DecidableEq

/-- `ensemble_forecast(dept, current_round)`. -/
def ensemble_forecast (sq : ℚ → ℚ) (data : HistData) (dept : Dept)
    (current_round : ℕ) : EnsembleResult :=
  let ma_forecast := moving_average_forecast data dept current_round 3
  let time_forecast := time_based_forecast sq data dept current_round
  let trend_fc := trend_forecast data dept current_round 5
  let time_value := match time_forecast with
    | .band f _ _ _ => f
    | .scalar v => v
  let forecast := 0.4 * time_value + 0.3 * ma_forecast + 0.3 * trend_fc
  let lu := match time_forecast with
    | .band _ lo hi _ => (lo, hi)
    | .scalar _ =>
        let s := sq (svar (colVals data dept))
        (max 0 (forecast - s), forecast + s)
  { forecast := roundPy1 forecast
    lower_bound := roundPy1 lu.1
    upper_bound := roundPy1 lu.2
    methods :=
      { moving_average := roundPy1 ma_forecast
        time_based := roundPy1 time_value
        trend := roundPy1 trend_fc } }

/-- `forecast_all_departments(current_round)`: department → Forecast Result,
in the fixed department order. -/
def forecast_all_departments (sq : ℚ → ℚ) (data : HistData)
    (current_round : ℕ) : List (Dept × EnsembleResult) :=
  departments.map fun dept => (dept, ensemble_forecast sq data dept current_round)

/-- `forecast_next_n_rounds(current_round, n)`. -/
def forecast_next_n_rounds (sq : ℚ → ℚ) (data : HistData)
    (current_round n : ℕ) : List (ℕ × List (Dept × EnsembleResult)) :=
  (List.range' current_round n).map fun r => (r, forecast_all_departments sq data r)

/-- A value of the forecast map passed to `detect_surge` and
`calculate_capacity_recommendations`: an ensemble dict or a bare float. -/
inductive FVal
  | dict (e : EnsembleResult)
  | scalar (v : ℚ)
deriving DecidableEq

/-- The shape-sniffing `forecast['forecast'] if isinstance(forecast, dict) else forecast`. -/
def fval : FVal → ℚ
  | .dict e => e.forecast
  | .scalar v => v

/-- Alert severity. -/
inductive Severity
  | HIGH
  | MODERATE
deriving DecidableEq

/-- A Surge Alert.  The `message` string of the source is pure formatting of
the other fields and is not modelled. -/
structure SurgeAlert where
  department : Dept
  forecast : ℚ
  threshold : ℚ
  severity : Severity
deriving DecidableEq

/-- `detect_surge(forecast_data, threshold_percentile)`; alerts are appended
in the iteration order of `forecast_data`. -/
def detect_surge (data : HistData) :
    List (Dept × FVal) → ℚ → List SurgeAlert
  | [], _ => []
  | (dept, f) :: rest, p =>
    let hist := colVals data dept
    let threshold := percentile hist p
    let forecast_value := fval f
    if threshold < forecast_value then
      { department := dept
        forecast := forecast_value
        threshold := threshold
        severity :=
          if percentile hist 90 < forecast_value then .HIGH else .MODERATE } ::
        detect_surge data rest p
    else detect_surge data rest p

/-- A per-department capacity configuration: `{ratio_key: patients_per_unit}`. -/
abbrev DeptConfig := List (String × ℚ)

/-- The capacity configuration: department → ratio dict. -/
abbrev CapacityConfig := List (Dept × DeptConfig)

/-- `config.get(key, default)`. -/
def cfg_get (c : DeptConfig) (key : String) (dflt : ℚ) : ℚ :=
  match c.find? fun kv => kv.1 == key with
  | some kv => kv.2
  | none => dflt

/-- A Capacity Recommendation; the per-role counts are kept as a keyed list so
that outputs with differing role sets are comparable. -/
structure CapacityRec where
  expected_patients : ℚ
  roles : List (String × ℤ)
deriving DecidableEq

/-- `calculate_capacity_recommendations(forecasts, capacity_config)`. -/
def calculate_capacity_recommendations :
    List (Dept × FVal) → CapacityConfig → List (Dept × CapacityRec)
  | [], _ => []
  | (dept, f) :: rest, capacity_config =>
    match capacity_config.find? fun kv => kv.1 == dept with
    | none => calculate_capacity_recommendations rest capacity_config
    | some e =>
      let forecast_value := fval f
      (dept,
        { expected_patients := forecast_value
          roles :=
            [("nurses_recommended",
               Int.ceil (forecast_value / cfg_get e.2 "patients_per_nurse" 4)),
             ("doctors_recommended",
               Int.ceil (forecast_value / cfg_get e.2 "patients_per_doctor" 6))] }) ::
        calculate_capacity_recommendations rest capacity_config

/-- The summary-statistics dict of one department. -/
structure SummaryStats where
  mean : ℚ
  median : ℚ
  std : ℚ
  min : ℚ
  max : ℚ
  p25 : ℚ
  p75 : ℚ
  p90 : ℚ
deriving DecidableEq

/-- `get_summary_statistics()`. -/
def get_summary_statistics (sq : ℚ → ℚ) (data : HistData) :
    List (Dept × SummaryStats) :=
  departments.map fun dept =>
    let dept_data := colVals data dept
    (dept,
      { mean := qmean dept_data
        median := qmedian dept_data
        std := sq (svar dept_data)
        min := vmin dept_data
        max := vmax dept_data
        p25 := percentile dept_data 25
        p75 := percentile dept_data 75
        p90 := percentile dept_data 90 })

/-- A small well-formed Historical Store used to instantiate hypotheses:
four sessions, contiguous rounds from 1. -/
def demo : HistData :=
  [⟨1, 1, 0, 2, 1, 0, 1⟩,
   ⟨1, 2, 4, 1, 0, 1, 2⟩,
   ⟨2, 1, 0, 3, 2, 1, 0⟩,
   ⟨2, 2, 3, 2, 1, 0, 1⟩,
   ⟨3, 1, 0, 1, 1, 2, 2⟩,
   ⟨4, 1, 1, 2, 0, 1, 1⟩]

/-- Four single-round sessions whose `emergency_walkin` column at round 1 is
`[0, 0, 0, 1]` (mean 1/4, ddof=1 variance 1/4). -/
def demo4 : HistData :=
  [⟨1, 1, 0, 2, 1, 0, 1⟩,
   ⟨2, 1, 0, 3, 2, 1, 0⟩,
   ⟨3, 1, 0, 1, 1, 2, 2⟩,
   ⟨4, 1, 1, 2, 0, 1, 1⟩]

/-- A square-root oracle for witnesses: the zero function (trivially maps
non-negative inputs to non-negative outputs). -/
def sq0 : ℚ → ℚ := fun _ => 0

/-- A square-root oracle agreeing with IEEE `sqrt` at `1/4`, the only input
the `demo4` counterexample evaluates it on. -/
def sqDemo : ℚ → ℚ := fun x => if x = 1 / 4 then 1 / 2 else 0

/-- Rows are contiguous per session: every round is at least 1 and, unless it
is 1, the same session also holds the preceding round. -/
def ContiguousRounds (data : HistData) : Prop :=
  ∀ o ∈ data, 1 ≤ o.round ∧
    (o.round = 1 ∨ ∃ o' ∈ data, o'.session_id = o.session_id ∧ o'.round + 1 = o.round)

/-- A well-formed Observation Dataset: non-empty, contiguous rounds per
session (department counts are non-negative by construction, being `ℕ`). -/
def WellFormed (data : HistData) : Prop := data ≠ [] ∧ ContiguousRounds data

/-! ### Checked variants

The `...C` functions recompute each method with every operation that can raise
an exception in the Python source made explicit as an `Option` failure:
`Series.mean()` of an empty slice, `np.percentile` of an empty array or an
out-of-range percentile, `scipy.stats.linregress` on an empty or all-identical
abscissa, and the `int(np.ceil(...))` conversion after dividing by a zero
staffing ratio.  `none` marks exactly the places the source would raise; a
`some` result is the value the total embedding computes. -/

/-- `Series.mean()`, failing on an empty series. -/
def qmeanC (l : List ℚ) : Option ℚ :=
  if l = [] then none else some (qmean l)

/-- `np.percentile`, failing on an empty array or an out-of-range percentile. -/
def percentileC (l : List ℚ) (p : ℚ) : Option ℚ :=
  if l = [] ∨ p < 0 ∨ 100 < p then none else some (percentile l p)

/-- `Series.median()`, failing on an empty series. -/
def qmedianC (l : List ℚ) : Option ℚ :=
  if l = [] then none else some (qmedian l)

/-- Detects an all-identical list (the `amax(x) == amin(x)` test of scipy). -/
def allEqQ : List ℚ → Bool
  | [] => true
  | h :: t => t.all fun a => a == h

/-- `scipy.stats.linregress`, failing where scipy raises: on an empty `x`
(`np.amax` of an empty array) or on two or more identical `x` values. -/
def linregressC (x y : List ℚ) : Option (ℚ × ℚ) :=
  if x = [] then none
  else if 2 ≤ x.length ∧ allEqQ x then none
  else some (linregress x y)

/-- Checked `moving_average_forecast`. -/
def moving_average_forecastC (data : HistData) (dept : Dept)
    (current_round window : ℕ) : Option ℚ :=
  if current_round ≤ 1 then qmeanC (colVals data dept)
  else
    let recent_data := colVals
      (data.filter fun o =>
        decide (max 1 (current_round - window) ≤ o.round ∧ o.round < current_round))
      dept
    if recent_data.length = 0 then qmeanC (colVals data dept)
    else qmeanC recent_data

/-- Checked `time_based_forecast`. -/
def time_based_forecastC (sq : ℚ → ℚ) (data : HistData) (dept : Dept)
    (current_round : ℕ) : Option TBForecast :=
  let round_data := colVals (data.filter fun o => o.round == current_round) dept
  if round_data.length = 0 then (qmeanC (colVals data dept)).map .scalar
  else
    (qmeanC round_data).map fun mean_forecast =>
      let std_forecast :=
        if 1 < round_data.length then sq (svar round_data)
        else mean_forecast * 0.3
      .band mean_forecast (max 0 (mean_forecast - std_forecast))
        (mean_forecast + std_forecast) 0.68

/-- Checked `trend_forecast`. -/
def trend_forecastC (data : HistData) (dept : Dept)
    (current_round lookback : ℕ) : Option ℚ :=
  if current_round ≤ 2 then moving_average_forecastC data dept current_round 3
  else
    let recent_rounds :=
      group_rounds data dept (max 1 (current_round - lookback)) current_round
    if recent_rounds.length < 2 then moving_average_forecastC data dept current_round 3
    else
      let x := recent_rounds.map fun g => (g.1 : ℚ)
      let y := recent_rounds.map Prod.snd
      (linregressC x y).map fun si => max 0 (si.1 * (current_round : ℚ) + si.2)

/-- Checked `ensemble_forecast`. -/
def ensemble_forecastC (sq : ℚ → ℚ) (data : HistData) (dept : Dept)
    (current_round : ℕ) : Option EnsembleResult :=
  (moving_average_forecastC data dept current_round 3).bind fun ma_forecast =>
  (time_based_forecastC sq data dept current_round).bind fun time_forecast =>
  (trend_forecastC data dept current_round 5).map fun trend_fc =>
    let time_value := match time_forecast with
      | .band f _ _ _ => f
      | .scalar v => v
    let forecast := 0.4 * time_value + 0.3 * ma_forecast + 0.3 * trend_fc
    let lu := match time_forecast with
      | .band _ lo hi _ => (lo, hi)
      | .scalar _ =>
          let s := sq (svar (colVals data dept))
          (max 0 (forecast - s), forecast + s)
    { forecast := roundPy1 forecast
      lower_bound := roundPy1 lu.1
      upper_bound := roundPy1 lu.2
      methods :=
        { moving_average := roundPy1 ma_forecast
          time_based := roundPy1 time_value
          trend := roundPy1 trend_fc } }

/-- Sequencing of an option-producing map over a list. -/
def opt_all {α β : Type} (f : α → Option β) : List α → Option (List β)
  | [] => some []
  | a :: t => (f a).bind fun b => (opt_all f t).map fun bs => b :: bs

/-- Checked `forecast_all_departments`. -/
def forecast_all_departmentsC (sq : ℚ → ℚ) (data : HistData)
    (current_round : ℕ) : Option (List (Dept × EnsembleResult)) :=
  opt_all (fun dept => (ensemble_forecastC sq data dept current_round).map
    fun e => (dept, e)) departments

/-- Checked `forecast_next_n_rounds`. -/
def forecast_next_n_roundsC (sq : ℚ → ℚ) (data : HistData)
    (current_round n : ℕ) : Option (List (ℕ × List (Dept × EnsembleResult))) :=
  opt_all (fun r => (forecast_all_departmentsC sq data r).map fun m => (r, m))
    (List.range' current_round n)

/-- Checked `detect_surge`. -/
def detect_surgeC (data : HistData) :
    List (Dept × FVal) → ℚ → Option (List SurgeAlert)
  | [], _ => some []
  | (dept, f) :: rest, p =>
    (percentileC (colVals data dept) p).bind fun threshold =>
      let forecast_value := fval f
      if threshold < forecast_value then
        (percentileC (colVals data dept) 90).bind fun p90 =>
          (detect_surgeC data rest p).map fun alerts =>
            { department := dept
              forecast := forecast_value
              threshold := threshold
              severity :=
                if p90 < forecast_value then Severity.HIGH else .MODERATE } :: alerts
      else detect_surgeC data rest p

/-- Checked `calculate_capacity_recommendations`: a zero staffing ratio makes
the float division produce an infinity whose `int` conversion raises. -/
def calculate_capacity_recommendationsC :
    List (Dept × FVal) → CapacityConfig → Option (List (Dept × CapacityRec))
  | [], _ => some []
  | (dept, f) :: rest, capacity_config =>
    match capacity_config.find? fun kv => kv.1 == dept with
    | none => calculate_capacity_recommendationsC rest capacity_config
    | some e =>
      let forecast_value := fval f
      let r1 := cfg_get e.2 "patients_per_nurse" 4
      let r2 := cfg_get e.2 "patients_per_doctor" 6
      if r1 = 0 ∨ r2 = 0 then none
      else
        (calculate_capacity_recommendationsC rest capacity_config).map fun recs =>
          (dept,
            { expected_patients := forecast_value
              roles :=
                [("nurses_recommended", Int.ceil (forecast_value / r1)),
                 ("doctors_recommended", Int.ceil (forecast_value / r2))] }) :: recs

/-- Checked `get_summary_statistics`. -/
def get_summary_statisticsC (sq : ℚ → ℚ) (data : HistData) :
    Option (List (Dept × SummaryStats)) :=
  opt_all (fun dept =>
    let dept_data := colVals data dept
    (qmeanC dept_data).bind fun mean =>
    (qmedianC dept_data).bind fun median =>
    (percentileC dept_data 25).bind fun p25 =>
    (percentileC dept_data 75).bind fun p75 =>
    (percentileC dept_data 90).map fun p90 =>
      (dept,
        { mean := mean
          median := median
          std := sq (svar dept_data)
          min := vmin dept_data
          max := vmax dept_data
          p25 := p25
          p75 := p75
          p90 := p90 })) departments

/-! ### The engine object

`ERPredictiveAnalytics` and the `m_...` wrappers model the Python class: each
method is a state transformer returning its value together with the (possibly
updated) engine state.  As in the source, every method only reads
`historical_data` (and `departments`), so each returns its input state
unchanged and ignores `forecast_cache`. -/

/-- The engine state: the constructor-set fields of `ERPredictiveAnalytics`. -/
structure ERPredictiveAnalytics where
  historical_data : HistData
  departments : List Dept
  forecast_cache : List ((Dept × ℕ) × EnsembleResult)
deriving DecidableEq

/-- `ERPredictiveAnalytics.__init__(historical_data)`. -/
def mkERPredictiveAnalytics (historical_data : HistData) : ERPredictiveAnalytics :=
  { historical_data := historical_data
    departments := departments
    forecast_cache := [] }

/-- Method `moving_average_forecast` as a state transformer. -/
def m_moving_average_forecast (st : ERPredictiveAnalytics) (dept : Dept)
    (current_round window : ℕ) : ℚ × ERPredictiveAnalytics :=
  (moving_average_forecast st.historical_data dept current_round window, st)

/-- Method `time_based_forecast` as a state transformer. -/
def m_time_based_forecast (sq : ℚ → ℚ) (st : ERPredictiveAnalytics) (dept : Dept)
    (current_round : ℕ) : TBForecast × ERPredictiveAnalytics :=
  (time_based_forecast sq st.historical_data dept current_round, st)

/-- Method `trend_forecast` as a state transformer. -/
def m_trend_forecast (st : ERPredictiveAnalytics) (dept : Dept)
    (current_round lookback : ℕ) : ℚ × ERPredictiveAnalytics :=
  (trend_forecast st.historical_data dept current_round lookback, st)

/-- Method `ensemble_forecast` as a state transformer. -/
def m_ensemble_forecast (sq : ℚ → ℚ) (st : ERPredictiveAnalytics) (dept : Dept)
    (current_round : ℕ) : EnsembleResult × ERPredictiveAnalytics :=
  (ensemble_forecast sq st.historical_data dept current_round, st)

/-- Method `forecast_all_departments` as a state transformer; it iterates the
state's own department list. -/
def m_forecast_all_departments (sq : ℚ → ℚ) (st : ERPredictiveAnalytics)
    (current_round : ℕ) : List (Dept × EnsembleResult) × ERPredictiveAnalytics :=
  (st.departments.map fun dept =>
    (dept, ensemble_forecast sq st.historical_data dept current_round), st)

/-- Method `forecast_next_n_rounds` as a state transformer. -/
def m_forecast_next_n_rounds (sq : ℚ → ℚ) (st : ERPredictiveAnalytics)
    (current_round n : ℕ) :
    List (ℕ × List (Dept × EnsembleResult)) × ERPredictiveAnalytics :=
  ((List.range' current_round n).map fun r =>
    (r, (m_forecast_all_departments sq st r).1), st)

/-- Method `detect_surge` as a state transformer. -/
def m_detect_surge (st : ERPredictiveAnalytics) (forecast_data : List (Dept × FVal))
    (threshold_percentile : ℚ) : List SurgeAlert × ERPredictiveAnalytics :=
  (detect_surge st.historical_data forecast_data threshold_percentile, st)

/-- Method `calculate_capacity_recommendations` as a state transformer. -/
def m_calculate_capacity_recommendations (st : ERPredictiveAnalytics)
    (forecasts : List (Dept × FVal)) (capacity_config : CapacityConfig) :
    List (Dept × CapacityRec) × ERPredictiveAnalytics :=
  (calculate_capacity_recommendations forecasts capacity_config, st)

/-- Method `get_summary_statistics` as a state transformer; it iterates the
state's own department list. -/
def m_get_summary_statistics (sq : ℚ → ℚ) (st : ERPredictiveAnalytics) :
    List (Dept × SummaryStats) × ERPredictiveAnalytics :=
  (st.departments.map fun dept =>
    let dept_data := colVals st.historical_data dept
    (dept,
      { mean := qmean dept_data
        median := qmedian dept_data
        std := sq (svar dept_data)
        min := vmin dept_data
        max := vmax dept_data
        p25 := percentile dept_data 25
        p75 := percentile dept_data 75
        p90 := percentile dept_data 90 }), st)

/-- Modelled from the spec (claim reading of `calculate_capacity_recommendations`):
for each department in both maps, one recommended count per staffing role of the
supplied configuration, role names and ratio keys taken from that configuration. -/
def capacity_recommendations_per_claim (forecasts : List (Dept × FVal))
    (capacity_config : CapacityConfig) : List (Dept × CapacityRec) :=
  forecasts.filterMap fun df =>
    (capacity_config.find? fun kv => kv.1 == df.1).map fun e =>
      (df.1,
        { expected_patients := fval df.2
          roles := e.2.map fun kv => (kv.1, Int.ceil (fval df.2 / kv.2)) })

/-- A forecast map with a single department, used to refute claim readings. -/
def cexForecasts : List (Dept × FVal) := [(.surgery, .scalar 10)]

/-- A capacity configuration whose only ratio key is a custom role name. -/
def cexConfig : CapacityConfig := [(.surgery, [("patients_per_staff", 5)])]

/-! ### Basic lemmas -/

theorem colVals_nonneg (data : HistData) (dept : Dept) :
    ∀ x ∈ colVals data dept, 0 ≤ x := by
  intro x hx
  obtain ⟨o, _, rfl⟩ := List.mem_map.1 hx
  exact Nat.cast_nonneg _

theorem qmean_nonneg {l : List ℚ} (h : ∀ x ∈ l, 0 ≤ x) : 0 ≤ qmean l :=
  div_nonneg (List.sum_nonneg h) (Nat.cast_nonneg _)

theorem svar_nonneg (l : List ℚ) : 0 ≤ svar l := by
  rcases l with _ | ⟨a, t⟩
  · simp [svar]
  · refine div_nonneg (List.sum_nonneg ?_) ?_
    · intro x hx
      obtain ⟨u, _, rfl⟩ := List.mem_map.1 hx
      exact sq_nonneg _
    · have : (0:ℚ) ≤ ((a :: t).length : ℚ) - 1 := by
        simp only [List.length_cons]
        push_cast
        linarith
      exact this

theorem rhe_lb (q : ℚ) : ⌊q⌋ ≤ rhe q := by
  unfold rhe
  dsimp only
  split_ifs <;> omega

theorem rhe_ub (q : ℚ) : rhe q ≤ ⌊q⌋ + 1 := by
  unfold rhe
  dsimp only
  split_ifs <;> omega

theorem rhe_mono {x y : ℚ} (h : x ≤ y) : rhe x ≤ rhe y := by
  have hf : ⌊x⌋ ≤ ⌊y⌋ := Int.floor_mono h
  rcases lt_or_eq_of_le hf with hlt | heq
  · calc rhe x ≤ ⌊x⌋ + 1 := rhe_ub x
      _ ≤ ⌊y⌋ := by omega
      _ ≤ rhe y := rhe_lb y
  · have hfr : x - (⌊x⌋ : ℚ) ≤ y - (⌊y⌋ : ℚ) := by
      rw [← heq]
      linarith
    unfold rhe
    dsimp only
    rw [← heq]
    split_ifs <;> first | omega | linarith

theorem rhe_nonneg {q : ℚ} (h : 0 ≤ q) : 0 ≤ rhe q :=
  le_trans (Int.floor_nonneg.2 h) (rhe_lb q)

theorem roundPy1_nonneg {q : ℚ} (h : 0 ≤ q) : 0 ≤ roundPy1 q := by
  unfold roundPy1
  have : (0:ℤ) ≤ rhe (10 * q) := rhe_nonneg (by linarith)
  positivity

theorem roundPy1_mono {x y : ℚ} (h : x ≤ y) : roundPy1 x ≤ roundPy1 y := by
  unfold roundPy1
  have h10 : rhe (10 * x) ≤ rhe (10 * y) := rhe_mono (by linarith)
  have hc : ((rhe (10 * x) : ℚ)) ≤ ((rhe (10 * y) : ℚ)) := by exact_mod_cast h10
  exact div_le_div_of_nonneg_right hc (by norm_num)

theorem moving_average_forecast_nonneg (data : HistData) (dept : Dept)
    (r w : ℕ) : 0 ≤ moving_average_forecast data dept r w := by
  unfold moving_average_forecast
  dsimp only
  split_ifs <;> exact qmean_nonneg (colVals_nonneg _ _)

theorem trend_forecast_nonneg (data : HistData) (dept : Dept)
    (r lb : ℕ) : 0 ≤ trend_forecast data dept r lb := by
  unfold trend_forecast
  dsimp only
  split_ifs
  · exact moving_average_forecast_nonneg ..
  · exact moving_average_forecast_nonneg ..
  · exact le_max_left 0 _

/-- Facts the band constructor of `time_based_forecast` always satisfies. -/
theorem tb_band_facts {sq : ℚ → ℚ} {data : HistData} {dept : Dept} {r : ℕ}
    (hsq : ∀ x : ℚ, 0 ≤ x → 0 ≤ sq x) {f lo hi c : ℚ}
    (h : time_based_forecast sq data dept r = .band f lo hi c) :
    0 ≤ f ∧ 0 ≤ lo ∧ lo ≤ f ∧ f ≤ hi := by
  unfold time_based_forecast at h
  dsimp only at h
  by_cases hlen : (colVals (data.filter fun o => o.round == r) dept).length = 0
  · rw [if_pos hlen] at h
    exact absurd h (by simp)
  · rw [if_neg hlen] at h
    rw [TBForecast.band.injEq] at h
    obtain ⟨hf, hlo, hhi, -⟩ := h
    have hm : 0 ≤ qmean (colVals (data.filter fun o => o.round == r) dept) :=
      qmean_nonneg (colVals_nonneg _ _)
    have hs : 0 ≤ (if 1 < (colVals (data.filter fun o => o.round == r) dept).length
        then sq (svar (colVals (data.filter fun o => o.round == r) dept))
        else qmean (colVals (data.filter fun o => o.round == r) dept) * 0.3) := by
      split_ifs
      · exact hsq _ (svar_nonneg _)
      · positivity
    subst hf hlo hhi
    exact ⟨hm, le_max_left _ _, max_le hm (by linarith), by linarith⟩

/-- The scalar constructor of `time_based_forecast` carries the full-history mean. -/
theorem tb_scalar_val {sq : ℚ → ℚ} {data : HistData} {dept : Dept} {r : ℕ} {v : ℚ}
    (h : time_based_forecast sq data dept r = .scalar v) :
    v = qmean (colVals data dept) := by
  unfold time_based_forecast at h
  dsimp only at h
  by_cases hlen : (colVals (data.filter fun o => o.round == r) dept).length = 0
  · rw [if_pos hlen] at h
    rw [TBForecast.scalar.injEq] at h
    exact h.symm
  · rw [if_neg hlen] at h
    exact absurd h (by simp)

theorem colVals_length (l : HistData) (dept : Dept) :
    (colVals l dept).length = l.length := List.length_map _ _

theorem colVals_eq_nil {l : HistData} {dept : Dept} :
    colVals l dept = [] ↔ l = [] := by
  simp [colVals]

/-! ### Claim theorems -/

/-- C5: `moving_average_forecast` returns the mean of the department's observed
counts across all sessions over rounds in `[max(1, current_round - window),
current_round)`; when `current_round ≤ 1` or that windowed slice is empty it
returns the department's full-history mean; in particular at round 1 it equals
the full-history mean for every window. -/
theorem moving_average_forecast_spec (data : HistData) (dept : Dept) (r w : ℕ) :
    (r ≤ 1 → moving_average_forecast data dept r w = qmean (colVals data dept)) ∧
    (1 < r →
      colVals (data.filter fun o => decide (max 1 (r - w) ≤ o.round ∧ o.round < r)) dept ≠ [] →
      moving_average_forecast data dept r w =
        qmean (colVals (data.filter fun o => decide (max 1 (r - w) ≤ o.round ∧ o.round < r)) dept)) ∧
    (1 < r →
      colVals (data.filter fun o => decide (max 1 (r - w) ≤ o.round ∧ o.round < r)) dept = [] →
      moving_average_forecast data dept r w = qmean (colVals data dept)) ∧
    moving_average_forecast data dept 1 w = qmean (colVals data dept) := by
  refine ⟨fun h => ?_, fun h1 h2 => ?_, fun h1 h2 => ?_, ?_⟩
  · unfold moving_average_forecast
    rw [if_pos h]
  · unfold moving_average_forecast
    dsimp only
    rw [if_neg (by omega), if_neg (by simpa [List.length_eq_zero] using h2)]
  · unfold moving_average_forecast
    dsimp only
    rw [if_neg (by omega), if_pos (by rw [h2]; rfl)]
  · unfold moving_average_forecast
    rw [if_pos (le_refl 1)]

/-- C5 witness: on `demo` at round 2 the windowed slice is the round-1 rows. -/
theorem moving_average_forecast_spec_witness :
    moving_average_forecast demo .emergency_walkin 2 3 =
      qmean (colVals (demo.filter fun o =>
        decide (max 1 (2 - 3) ≤ o.round ∧ o.round < 2)) .emergency_walkin) :=
  (moving_average_forecast_spec demo .emergency_walkin 2 3).2.1 (by norm_num)
    (by simp [demo, colVals, col])

/-- C2: with at least one historical observation at exactly the requested round,
`time_based_forecast` returns the structured record whose forecast is the mean
of those observations, whose bounds are a one-standard-deviation band (with
`mean*0.3` substituted when exactly one sample exists) floored at 0 below, and
whose confidence is 0.68; with no observation at that round it returns the
full-history mean as a bare scalar. -/
theorem time_based_forecast_shape (sq : ℚ → ℚ) (data : HistData) (dept : Dept) (r : ℕ) :
    ((data.filter fun o => o.round == r) ≠ [] →
      time_based_forecast sq data dept r =
        .band (qmean (colVals (data.filter fun o => o.round == r) dept))
          (max 0 (qmean (colVals (data.filter fun o => o.round == r) dept) -
            (if 1 < (data.filter fun o => o.round == r).length
             then sq (svar (colVals (data.filter fun o => o.round == r) dept))
             else qmean (colVals (data.filter fun o => o.round == r) dept) * 0.3)))
          (qmean (colVals (data.filter fun o => o.round == r) dept) +
            (if 1 < (data.filter fun o => o.round == r).length
             then sq (svar (colVals (data.filter fun o => o.round == r) dept))
             else qmean (colVals (data.filter fun o => o.round == r) dept) * 0.3))
          0.68) ∧
    ((data.filter fun o => o.round == r) = [] →
      time_based_forecast sq data dept r = .scalar (qmean (colVals data dept))) := by
  constructor
  · intro h
    unfold time_based_forecast
    dsimp only
    rw [if_neg (by simpa [colVals_length, List.length_eq_zero] using h)]
    simp only [colVals_length]
  · intro h
    unfold time_based_forecast
    dsimp only
    rw [if_pos (by simp [h, colVals])]

/-- C2 witness: `demo` has observations at round 1, so the structured record is
returned there. -/
theorem time_based_forecast_shape_witness :
    time_based_forecast sq0 demo .emergency_walkin 1 =
      .band (qmean (colVals (demo.filter fun o => o.round == 1) .emergency_walkin))
        (max 0 (qmean (colVals (demo.filter fun o => o.round == 1) .emergency_walkin) -
          (if 1 < (demo.filter fun o => o.round == 1).length
           then sq0 (svar (colVals (demo.filter fun o => o.round == 1) .emergency_walkin))
           else qmean (colVals (demo.filter fun o => o.round == 1) .emergency_walkin) * 0.3)))
        (qmean (colVals (demo.filter fun o => o.round == 1) .emergency_walkin) +
          (if 1 < (demo.filter fun o => o.round == 1).length
           then sq0 (svar (colVals (demo.filter fun o => o.round == 1) .emergency_walkin))
           else qmean (colVals (demo.filter fun o => o.round == 1) .emergency_walkin) * 0.3))
        0.68 :=
  (time_based_forecast_shape sq0 demo .emergency_walkin 1).1 (by simp [demo])

/-- C10: whenever `time_based_forecast` returns the structured record over the
non-negative-count data model, the band brackets its own point forecast:
`0 ≤ lower_bound ≤ forecast ≤ upper_bound` (for any square root mapping
non-negative inputs to non-negative outputs, as IEEE `sqrt` does). -/
theorem time_based_band_brackets (sq : ℚ → ℚ) (data : HistData) (dept : Dept) (r : ℕ)
    (hsq : ∀ x : ℚ, 0 ≤ x → 0 ≤ sq x) (f lo hi c : ℚ)
    (h : time_based_forecast sq data dept r = .band f lo hi c) :
    0 ≤ lo ∧ lo ≤ f ∧ f ≤ hi := by
  obtain ⟨-, h1, h2, h3⟩ := tb_band_facts hsq h
  exact ⟨h1, h2, h3⟩

/-- C10 witness: on `demo4` at round 1 (four samples, mean 1/4) with the zero
square-root oracle the band is `[1/4, 1/4]` around forecast 1/4. -/
theorem time_based_band_brackets_witness :
    (0:ℚ) ≤ 1/4 ∧ (1/4:ℚ) ≤ 1/4 ∧ (1/4:ℚ) ≤ 1/4 :=
  time_based_band_brackets sq0 demo4 .emergency_walkin 1 (fun _ _ => le_refl 0)
    (1/4) (1/4) (1/4) 0.68
    (by norm_num [time_based_forecast, colVals, qmean, svar, demo4, sq0, col])

/-- C4: `detect_surge` emits an alert exactly for the departments of the given
forecast map whose point value strictly exceeds the department's historical
`threshold_percentile`-th percentile (no alert on equality), with severity HIGH
exactly when the value also strictly exceeds the 90th percentile and MODERATE
otherwise, in the iteration order of the forecast map. -/
theorem detect_surge_formula (data : HistData) (fd : List (Dept × FVal)) (p : ℚ) :
    detect_surge data fd p =
      (fd.filter fun df => decide (percentile (colVals data df.1) p < fval df.2)).map
        fun df =>
          { department := df.1
            forecast := fval df.2
            threshold := percentile (colVals data df.1) p
            severity :=
              if percentile (colVals data df.1) 90 < fval df.2 then Severity.HIGH
              else Severity.MODERATE } := by
  induction fd with
  | nil => rfl
  | cons df rest ih =>
    obtain ⟨dept, f⟩ := df
    by_cases h : percentile (colVals data dept) p < fval f
    · simp [detect_surge, List.filter_cons, h, ih]
    · simp [detect_surge, List.filter_cons, h, ih]

/-- C3 (amended): for each department of the forecast map that is present in the
capacity configuration, the recommendation takes `ceil(forecast_value / ratio)`
for the two fixed staffing roles, reading the ratios from the fixed keys
`patients_per_nurse` (default 4) and `patients_per_doctor` (default 6) of the
supplied configuration; departments absent from the configuration are silently
skipped without error. -/
theorem calculate_capacity_recommendations_formula (fc : List (Dept × FVal))
    (cc : CapacityConfig) :
    calculate_capacity_recommendations fc cc =
      fc.filterMap fun df =>
        (cc.find? fun kv => kv.1 == df.1).map fun e =>
          (df.1,
            { expected_patients := fval df.2
              roles :=
                [("nurses_recommended",
                   Int.ceil (fval df.2 / cfg_get e.2 "patients_per_nurse" 4)),
                 ("doctors_recommended",
                   Int.ceil (fval df.2 / cfg_get e.2 "patients_per_doctor" 6))] }) := by
  induction fc with
  | nil => rfl
  | cons df rest ih =>
    obtain ⟨dept, f⟩ := df
    rcases h : cc.find? fun kv => kv.1 == dept with - | e
    · simp [calculate_capacity_recommendations, h, ih, List.filterMap_cons]
    · simp [calculate_capacity_recommendations, h, ih, List.filterMap_cons]

/-- C3 is false as stated: with a configuration whose only ratio key is the
custom role `patients_per_staff`, the code does not derive the roles from the
configuration but still produces the two fixed nurse/doctor roles from the
default ratios. -/
theorem capacity_roles_fixed_cex :
    calculate_capacity_recommendations cexForecasts cexConfig ≠
      capacity_recommendations_per_claim cexForecasts cexConfig := by
  have e1 : ("patients_per_staff" == "patients_per_nurse") = false := by decide
  have e2 : ("patients_per_staff" == "patients_per_doctor") = false := by decide
  have h1 : calculate_capacity_recommendations cexForecasts cexConfig =
      [(.surgery,
        { expected_patients := 10
          roles := [("nurses_recommended", 3), ("doctors_recommended", 2)] })] := by
    norm_num [calculate_capacity_recommendations, cexForecasts, cexConfig, cfg_get,
      fval, List.find?, beq_self_eq_true, e1, e2, Int.ceil_eq_iff]
  have h2 : capacity_recommendations_per_claim cexForecasts cexConfig =
      [(.surgery, { expected_patients := 10, roles := [("patients_per_staff", 2)] })] := by
    norm_num [capacity_recommendations_per_claim, cexForecasts, cexConfig, fval,
      List.find?, beq_self_eq_true, List.filterMap_cons, Int.ceil_eq_iff]
  rw [h1, h2]
  simp

/-- C1 (amended): the ensemble point forecast is `0.4 * time_based +
0.3 * moving_average + 0.3 * trend`; its confidence bounds are the time-based
band when `time_based_forecast` returned the structured form, and otherwise
`forecast - std` floored at 0 and `forecast + std` with the full-history
standard deviation; the point value, each per-method value and both bounds are
rounded to one decimal place in the output (the bounds are rounded as well, not
reused verbatim). -/
theorem ensemble_forecast_formula (sq : ℚ → ℚ) (data : HistData) (dept : Dept) (r : ℕ) :
    (∀ f lo hi c, time_based_forecast sq data dept r = .band f lo hi c →
      ensemble_forecast sq data dept r =
        { forecast := roundPy1 (0.4 * f + 0.3 * moving_average_forecast data dept r 3 +
            0.3 * trend_forecast data dept r 5)
          lower_bound := roundPy1 lo
          upper_bound := roundPy1 hi
          methods :=
            { moving_average := roundPy1 (moving_average_forecast data dept r 3)
              time_based := roundPy1 f
              trend := roundPy1 (trend_forecast data dept r 5) } }) ∧
    (∀ v, time_based_forecast sq data dept r = .scalar v →
      ensemble_forecast sq data dept r =
        { forecast := roundPy1 (0.4 * v + 0.3 * moving_average_forecast data dept r 3 +
            0.3 * trend_forecast data dept r 5)
          lower_bound := roundPy1 (max 0 (0.4 * v + 0.3 * moving_average_forecast data dept r 3 +
            0.3 * trend_forecast data dept r 5 - sq (svar (colVals data dept))))
          upper_bound := roundPy1 (0.4 * v + 0.3 * moving_average_forecast data dept r 3 +
            0.3 * trend_forecast data dept r 5 + sq (svar (colVals data dept)))
          methods :=
            { moving_average := roundPy1 (moving_average_forecast data dept r 3)
              time_based := roundPy1 v
              trend := roundPy1 (trend_forecast data dept r 5) } }) := by
  constructor
  · intro f lo hi c h
    unfold ensemble_forecast
    rw [h]
  · intro v h
    unfold ensemble_forecast
    rw [h]

/-- C1 witness: the structured branch instantiated on `demo4` at round 1. -/
theorem ensemble_forecast_formula_witness :
    ensemble_forecast sqDemo demo4 .emergency_walkin 1 =
      { forecast := roundPy1 (0.4 * (1/4) +
          0.3 * moving_average_forecast demo4 .emergency_walkin 1 3 +
          0.3 * trend_forecast demo4 .emergency_walkin 1 5)
        lower_bound := roundPy1 0
        upper_bound := roundPy1 (3/4)
        methods :=
          { moving_average := roundPy1 (moving_average_forecast demo4 .emergency_walkin 1 3)
            time_based := roundPy1 (1/4)
            trend := roundPy1 (trend_forecast demo4 .emergency_walkin 1 5) } } :=
  (ensemble_forecast_formula sqDemo demo4 .emergency_walkin 1).1 (1/4) 0 (3/4) 0.68
    (by norm_num [time_based_forecast, colVals, qmean, svar, demo4, sqDemo, col])

/-- C1 is false as stated: on `demo4` at round 1 the structured time-based band
has upper bound 3/4 (mean 1/4 plus standard deviation 1/2), but the ensemble
publishes upper bound 4/5 — the bound is rounded to one decimal place, not
reused verbatim. -/
theorem ensemble_bounds_not_verbatim :
    time_based_forecast sqDemo demo4 .emergency_walkin 1 = .band (1/4) 0 (3/4) 0.68 ∧
    (ensemble_forecast sqDemo demo4 .emergency_walkin 1).upper_bound = 4/5 ∧
    (ensemble_forecast sqDemo demo4 .emergency_walkin 1).upper_bound ≠ 3/4 := by
  refine ⟨?_, ?_, ?_⟩
  · norm_num [time_based_forecast, colVals, qmean, svar, demo4, sqDemo, col]
  · norm_num [ensemble_forecast, time_based_forecast, moving_average_forecast,
      trend_forecast, colVals, qmean, svar, demo4, sqDemo, col, roundPy1, rhe]
  · norm_num [ensemble_forecast, time_based_forecast, moving_average_forecast,
      trend_forecast, colVals, qmean, svar, demo4, sqDemo, col, roundPy1, rhe]

/-- C7: over the non-negative data model (with at least two records, so that the
full-history sample standard deviation the scalar branch takes is defined),
every ensemble Forecast Result satisfies `forecast ≥ 0`, `lower_bound ≥ 0` and
`upper_bound ≥ lower_bound`, for any square root mapping non-negative inputs to
non-negative outputs. -/
theorem ensemble_forecast_bounds_nonneg (sq : ℚ → ℚ) (data : HistData) (dept : Dept)
    (r : ℕ) (hsq : ∀ x : ℚ, 0 ≤ x → 0 ≤ sq x) (_hlen : 2 ≤ data.length) :
    0 ≤ (ensemble_forecast sq data dept r).forecast ∧
    0 ≤ (ensemble_forecast sq data dept r).lower_bound ∧
    (ensemble_forecast sq data dept r).lower_bound ≤
      (ensemble_forecast sq data dept r).upper_bound := by
  have hma := moving_average_forecast_nonneg data dept r 3
  have htr := trend_forecast_nonneg data dept r 5
  rcases htb : time_based_forecast sq data dept r with v | ⟨f, lo, hi, c⟩
  · have hv : v = qmean (colVals data dept) := tb_scalar_val htb
    have hv0 : 0 ≤ v := hv ▸ qmean_nonneg (colVals_nonneg _ _)
    have hs : 0 ≤ sq (svar (colVals data dept)) := hsq _ (svar_nonneg _)
    simp only [ensemble_forecast, htb]
    refine ⟨roundPy1_nonneg (by linarith), roundPy1_nonneg (le_max_left _ _),
      roundPy1_mono (max_le (by linarith) (by linarith))⟩
  · obtain ⟨hf0, hlo0, hlof, hfhi⟩ := tb_band_facts hsq htb
    simp only [ensemble_forecast, htb]
    exact ⟨roundPy1_nonneg (by linarith), roundPy1_nonneg hlo0,
      roundPy1_mono (by linarith)⟩

/-- C7 witness: instantiated on `demo4` (4 records) at round 1 with the zero
square-root oracle. -/
theorem ensemble_forecast_bounds_nonneg_witness :
    0 ≤ (ensemble_forecast sq0 demo4 .emergency_walkin 1).forecast ∧
    0 ≤ (ensemble_forecast sq0 demo4 .emergency_walkin 1).lower_bound ∧
    (ensemble_forecast sq0 demo4 .emergency_walkin 1).lower_bound ≤
      (ensemble_forecast sq0 demo4 .emergency_walkin 1).upper_bound :=
  ensemble_forecast_bounds_nonneg sq0 demo4 .emergency_walkin 1 (fun _ _ => le_refl 0)
    (by simp [demo4])

/-- Ordinary least squares in its textbook centered form: slope
`Σ(xᵢ-x̄)(yᵢ-ȳ) / Σ(xᵢ-x̄)²`, intercept `ȳ - slope·x̄`. -/
def leastSquaresLine (x y : List ℚ) : ℚ × ℚ :=
  let slope := (List.zipWith (fun u v => (u - qmean x) * (v - qmean y)) x y).sum /
    ((x.map fun u => (u - qmean x) ^ 2).sum)
  (slope, qmean y - slope * qmean x)

theorem sum_zip_sub (x : List ℚ) (a b : ℚ) :
    ∀ y : List ℚ, x.length = y.length →
      (List.zipWith (fun u v => (u - a) * (v - b)) x y).sum =
        (List.zipWith (fun u v => u * v) x y).sum - a * y.sum - b * x.sum +
          (x.length : ℚ) * (a * b) := by
  induction x with
  | nil =>
    intro y hy
    rcases y with - | ⟨v, vs⟩
    · simp
    · simp at hy
  | cons u us ih =>
    intro y hy
    rcases y with - | ⟨v, vs⟩
    · simp at hy
    · simp only [List.length_cons] at hy
      simp only [List.zipWith_cons_cons, List.sum_cons, List.length_cons]
      rw [ih vs (by omega)]
      push_cast
      ring

theorem sum_map_sq_sub (x : List ℚ) (a : ℚ) :
    (x.map fun u => (u - a) ^ 2).sum =
      (x.map fun u => u ^ 2).sum - 2 * a * x.sum + (x.length : ℚ) * a ^ 2 := by
  induction x with
  | nil => simp
  | cons u us ih =>
    simp only [List.map_cons, List.sum_cons, List.length_cons]
    rw [ih]
    push_cast
    ring

theorem div_div_div_same (a b n : ℚ) (hn : n ≠ 0) : (a / n) / (b / n) = a / b := by
  rcases eq_or_ne b 0 with rfl | hb
  · simp
  · field_simp
    try ring

/-- `scipy.stats.linregress`'s moment computation agrees with the textbook
centered least-squares formulas. -/
theorem linregress_centered (x y : List ℚ) (hlen : x.length = y.length)
    (hx : x ≠ []) : linregress x y = leastSquaresLine x y := by
  have hn : ((x.length : ℚ)) ≠ 0 := by
    exact_mod_cast fun h => hx (List.length_eq_zero.1 (by exact_mod_cast h))
  have hzlen : (List.zipWith (fun u v => u * v) x y).length = x.length := by
    rw [List.length_zipWith, hlen, min_self]
  have hylen : ((y.length : ℚ)) = ((x.length : ℚ)) := by rw [hlen]
  have hnum := sum_zip_sub x (qmean x) (qmean y) y hlen
  have hden := sum_map_sq_sub x (qmean x)
  unfold linregress leastSquaresLine
  dsimp only
  simp only [qmean, hzlen, List.length_map, hylen] at hnum hden ⊢
  set n := ((x.length : ℚ)) with hnq
  set Sx := x.sum with hSx
  set Sy := y.sum with hSy
  set Zxy := (List.zipWith (fun u v => u * v) x y).sum with hZxy
  set Zx2 := (x.map fun u => u ^ 2).sum with hZx2
  rw [Prod.mk.injEq]
  have e1 : Zxy / n - Sx / n * (Sy / n) =
      (Zxy - Sx / n * Sy - Sy / n * Sx + n * (Sx / n * (Sy / n))) / n := by
    field_simp
    ring
  have e2 : Zx2 / n - (Sx / n) ^ 2 =
      (Zx2 - 2 * (Sx / n) * Sx + n * (Sx / n) ^ 2) / n := by
    field_simp
    ring
  have hslope : (Zxy / n - Sx / n * (Sy / n)) / (Zx2 / n - (Sx / n) ^ 2) =
      (List.zipWith (fun u v => (u - Sx / n) * (v - Sy / n)) x y).sum /
        (x.map fun u => (u - Sx / n) ^ 2).sum := by
    rw [hnum, hden, e1, e2, div_div_div_same _ _ _ hn]
  exact ⟨hslope, by rw [hslope]⟩

/-- C6: for `current_round ≤ 2`, `trend_forecast` skips regression and returns
the moving-average forecast; otherwise it groups the rounds of
`[max(1, current_round - lookback), current_round)` into per-round means, falls
back to the moving average when fewer than two distinct round-groups exist, and
otherwise returns the least-squares regression line over those per-round means
evaluated at `current_round`, floored at 0. -/
theorem trend_forecast_spec (data : HistData) (dept : Dept) (r lb : ℕ) :
    trend_forecast data dept r lb =
      if r ≤ 2 then moving_average_forecast data dept r 3
      else
        if (group_rounds data dept (max 1 (r - lb)) r).length < 2 then
          moving_average_forecast data dept r 3
        else
          max 0 ((leastSquaresLine
              ((group_rounds data dept (max 1 (r - lb)) r).map fun g => (g.1 : ℚ))
              ((group_rounds data dept (max 1 (r - lb)) r).map Prod.snd)).1 * (r : ℚ) +
            (leastSquaresLine
              ((group_rounds data dept (max 1 (r - lb)) r).map fun g => (g.1 : ℚ))
              ((group_rounds data dept (max 1 (r - lb)) r).map Prod.snd)).2) := by
  unfold trend_forecast
  dsimp only
  split_ifs with h1 h2
  · rfl
  · rfl
  · rw [linregress_centered]
    · simp [List.length_map]
    · simp only [ne_eq, List.map_eq_nil_iff]
      intro h
      rw [h] at h2
      simp at h2

/-- C9: every method of the engine leaves the engine state unchanged, a second
call with identical arguments on the returned state yields the identical
result, and no result depends on the `forecast_cache` field — which the
constructor initialises to empty and no method ever reads or writes. -/
theorem engine_stateless (sq : ℚ → ℚ) (st : ERPredictiveAnalytics) :
    (∀ d : HistData, (mkERPredictiveAnalytics d).forecast_cache = []) ∧
    (∀ dept r w, (m_moving_average_forecast st dept r w).2 = st ∧
      (m_moving_average_forecast (m_moving_average_forecast st dept r w).2 dept r w).1 =
        (m_moving_average_forecast st dept r w).1 ∧
      ∀ cache, (m_moving_average_forecast { st with forecast_cache := cache } dept r w).1 =
        (m_moving_average_forecast st dept r w).1) ∧
    (∀ dept r, (m_time_based_forecast sq st dept r).2 = st ∧
      (m_time_based_forecast sq (m_time_based_forecast sq st dept r).2 dept r).1 =
        (m_time_based_forecast sq st dept r).1 ∧
      ∀ cache, (m_time_based_forecast sq { st with forecast_cache := cache } dept r).1 =
        (m_time_based_forecast sq st dept r).1) ∧
    (∀ dept r lb, (m_trend_forecast st dept r lb).2 = st ∧
      (m_trend_forecast (m_trend_forecast st dept r lb).2 dept r lb).1 =
        (m_trend_forecast st dept r lb).1 ∧
      ∀ cache, (m_trend_forecast { st with forecast_cache := cache } dept r lb).1 =
        (m_trend_forecast st dept r lb).1) ∧
    (∀ dept r, (m_ensemble_forecast sq st dept r).2 = st ∧
      (m_ensemble_forecast sq (m_ensemble_forecast sq st dept r).2 dept r).1 =
        (m_ensemble_forecast sq st dept r).1 ∧
      ∀ cache, (m_ensemble_forecast sq { st with forecast_cache := cache } dept r).1 =
        (m_ensemble_forecast sq st dept r).1) ∧
    (∀ r, (m_forecast_all_departments sq st r).2 = st ∧
      (m_forecast_all_departments sq (m_forecast_all_departments sq st r).2 r).1 =
        (m_forecast_all_departments sq st r).1 ∧
      ∀ cache, (m_forecast_all_departments sq { st with forecast_cache := cache } r).1 =
        (m_forecast_all_departments sq st r).1) ∧
    (∀ r n, (m_forecast_next_n_rounds sq st r n).2 = st ∧
      (m_forecast_next_n_rounds sq (m_forecast_next_n_rounds sq st r n).2 r n).1 =
        (m_forecast_next_n_rounds sq st r n).1 ∧
      ∀ cache, (m_forecast_next_n_rounds sq { st with forecast_cache := cache } r n).1 =
        (m_forecast_next_n_rounds sq st r n).1) ∧
    (∀ fd p, (m_detect_surge st fd p).2 = st ∧
      (m_detect_surge (m_detect_surge st fd p).2 fd p).1 = (m_detect_surge st fd p).1 ∧
      ∀ cache, (m_detect_surge { st with forecast_cache := cache } fd p).1 =
        (m_detect_surge st fd p).1) ∧
    (∀ fc cc, (m_calculate_capacity_recommendations st fc cc).2 = st ∧
      (m_calculate_capacity_recommendations
        (m_calculate_capacity_recommendations st fc cc).2 fc cc).1 =
        (m_calculate_capacity_recommendations st fc cc).1 ∧
      ∀ cache, (m_calculate_capacity_recommendations
          { st with forecast_cache := cache } fc cc).1 =
        (m_calculate_capacity_recommendations st fc cc).1) ∧
    ((m_get_summary_statistics sq st).2 = st ∧
      (m_get_summary_statistics sq (m_get_summary_statistics sq st).2).1 =
        (m_get_summary_statistics sq st).1 ∧
      ∀ cache, (m_get_summary_statistics sq { st with forecast_cache := cache }).1 =
        (m_get_summary_statistics sq st).1) :=
  ⟨fun _ => rfl,
   fun _ _ _ => ⟨rfl, rfl, fun _ => rfl⟩,
   fun _ _ => ⟨rfl, rfl, fun _ => rfl⟩,
   fun _ _ _ => ⟨rfl, rfl, fun _ => rfl⟩,
   fun _ _ => ⟨rfl, rfl, fun _ => rfl⟩,
   fun _ => ⟨rfl, rfl, fun _ => rfl⟩,
   fun _ _ => ⟨rfl, rfl, fun _ => rfl⟩,
   fun _ _ => ⟨rfl, rfl, fun _ => rfl⟩,
   fun _ _ => ⟨rfl, rfl, fun _ => rfl⟩,
   ⟨rfl, rfl, fun _ => rfl⟩⟩

/-! ### Totality of the checked variants on well-formed data -/

theorem qmeanC_of_ne {l : List ℚ} (h : l ≠ []) : qmeanC l = some (qmean l) := by
  unfold qmeanC
  rw [if_neg h]

theorem qmedianC_of_ne {l : List ℚ} (h : l ≠ []) : qmedianC l = some (qmedian l) := by
  unfold qmedianC
  rw [if_neg h]

theorem percentileC_of {l : List ℚ} (h : l ≠ []) (p : ℚ) (h0 : 0 ≤ p)
    (h100 : p ≤ 100) : percentileC l p = some (percentile l p) := by
  unfold percentileC
  rw [if_neg (by push_neg; exact ⟨h, h0, h100⟩)]

theorem colVals_ne_nil {data : HistData} (h : data ≠ []) (dept : Dept) :
    colVals data dept ≠ [] :=
  fun hc => h (colVals_eq_nil.1 hc)

theorem maC_eq {data : HistData} (h : data ≠ []) (dept : Dept) (r w : ℕ) :
    moving_average_forecastC data dept r w =
      some (moving_average_forecast data dept r w) := by
  unfold moving_average_forecastC moving_average_forecast
  dsimp only
  split_ifs with h1 h2
  · exact qmeanC_of_ne (colVals_ne_nil h dept)
  · exact qmeanC_of_ne (colVals_ne_nil h dept)
  · exact qmeanC_of_ne fun hc => h2 (by rw [hc]; rfl)

theorem tbC_eq (sq : ℚ → ℚ) {data : HistData} (h : data ≠ []) (dept : Dept) (r : ℕ) :
    time_based_forecastC sq data dept r = some (time_based_forecast sq data dept r) := by
  unfold time_based_forecastC time_based_forecast
  dsimp only
  split_ifs with h1 h2
  · rw [qmeanC_of_ne (colVals_ne_nil h dept)]
    rfl
  · rw [qmeanC_of_ne fun hc => h1 (by rw [hc]; rfl)]
    rfl
  · rw [qmeanC_of_ne fun hc => h1 (by rw [hc]; rfl)]
    rfl

theorem group_rounds_x_nodup (data : HistData) (dept : Dept) (lo hi : ℕ) :
    ((group_rounds data dept lo hi).map fun g => (g.1 : ℚ)).Nodup := by
  unfold group_rounds
  rw [List.map_map]
  refine List.Nodup.map ?_ ((List.nodup_range' ..).filter _)
  intro a b hab
  simpa using hab

theorem allEqQ_false_of_nodup {l : List ℚ} (hn : l.Nodup) (hl : 2 ≤ l.length) :
    allEqQ l = false := by
  rcases l with - | ⟨a, t⟩
  · simp at hl
  rcases t with - | ⟨b, t2⟩
  · simp at hl
  have hab : b ≠ a := by
    have hcons := List.nodup_cons.1 hn
    intro hba
    exact hcons.1 (by rw [← hba]; exact List.mem_cons_self ..)
  unfold allEqQ
  simp [List.all_cons, hab]

theorem linregressC_eq {x : List ℚ} (y : List ℚ) (hn : x.Nodup) (hl : 2 ≤ x.length) :
    linregressC x y = some (linregress x y) := by
  unfold linregressC
  rw [if_neg (by intro hnil; rw [hnil] at hl; simp at hl)]
  rw [if_neg (by
    intro hcon
    rw [allEqQ_false_of_nodup hn hl] at hcon
    simp at hcon)]

theorem trendC_eq {data : HistData} (h : data ≠ []) (dept : Dept) (r lb : ℕ) :
    trend_forecastC data dept r lb = some (trend_forecast data dept r lb) := by
  unfold trend_forecastC trend_forecast
  dsimp only
  split_ifs with h1 h2
  · exact maC_eq h dept r 3
  · exact maC_eq h dept r 3
  · rw [linregressC_eq _ (group_rounds_x_nodup ..) (by rw [List.length_map]; omega)]
    rfl

theorem ensembleC_eq (sq : ℚ → ℚ) {data : HistData} (h : data ≠ []) (dept : Dept)
    (r : ℕ) :
    ensemble_forecastC sq data dept r = some (ensemble_forecast sq data dept r) := by
  unfold ensemble_forecastC ensemble_forecast
  rw [maC_eq h, tbC_eq sq h, trendC_eq h]
  rfl

theorem opt_all_eq {α β : Type} (f : α → Option β) (g : α → β) (l : List α)
    (h : ∀ a ∈ l, f a = some (g a)) : opt_all f l = some (l.map g) := by
  induction l with
  | nil => rfl
  | cons a t ih =>
    unfold opt_all
    rw [h a (List.mem_cons_self ..), ih fun b hb => h b (List.mem_cons_of_mem _ hb)]
    rfl

theorem forecast_allC_eq (sq : ℚ → ℚ) {data : HistData} (h : data ≠ []) (r : ℕ) :
    forecast_all_departmentsC sq data r = some (forecast_all_departments sq data r) := by
  unfold forecast_all_departmentsC forecast_all_departments
  exact opt_all_eq _ _ _ fun d _ => by rw [ensembleC_eq sq h]; rfl

theorem nextNC_eq (sq : ℚ → ℚ) {data : HistData} (h : data ≠ []) (r n : ℕ) :
    forecast_next_n_roundsC sq data r n = some (forecast_next_n_rounds sq data r n) := by
  unfold forecast_next_n_roundsC forecast_next_n_rounds
  exact opt_all_eq _ _ _ fun k _ => by rw [forecast_allC_eq sq h]; rfl

theorem surgeC_eq {data : HistData} (h : data ≠ []) (fd : List (Dept × FVal)) (p : ℚ)
    (h0 : 0 ≤ p) (h100 : p ≤ 100) :
    detect_surgeC data fd p = some (detect_surge data fd p) := by
  induction fd with
  | nil => rfl
  | cons df rest ih =>
    obtain ⟨dept, f⟩ := df
    unfold detect_surgeC detect_surge
    dsimp only
    rw [percentileC_of (colVals_ne_nil h dept) p h0 h100, Option.some_bind]
    by_cases hc : percentile (colVals data dept) p < fval f
    · rw [if_pos hc, if_pos hc,
        percentileC_of (colVals_ne_nil h dept) 90 (by norm_num) (by norm_num),
        Option.some_bind, ih]
      rfl
    · rw [if_neg hc, if_neg hc]
      exact ih

theorem capC_eq (fc : List (Dept × FVal)) (cc : CapacityConfig)
    (hcc : ∀ e ∈ cc, ∀ kv ∈ e.2, kv.2 ≠ 0) :
    calculate_capacity_recommendationsC fc cc =
      some (calculate_capacity_recommendations fc cc) := by
  induction fc with
  | nil => rfl
  | cons df rest ih =>
    obtain ⟨dept, f⟩ := df
    unfold calculate_capacity_recommendationsC calculate_capacity_recommendations
    rcases hf : cc.find? fun kv => kv.1 == dept with - | e
    · rw [hf]
      exact ih
    · rw [hf]
      dsimp only
      have he : e ∈ cc := List.mem_of_find?_eq_some hf
      rw [if_neg, ih]
      · rfl
      · push_neg
        constructor
        · unfold cfg_get
          rcases hg : e.2.find? fun kv => kv.1 == "patients_per_nurse" with - | kv
          · simp [hg]
          · simp only [hg]
            exact hcc e he kv (List.mem_of_find?_eq_some hg)
        · unfold cfg_get
          rcases hg : e.2.find? fun kv => kv.1 == "patients_per_doctor" with - | kv
          · simp [hg]
          · simp only [hg]
            exact hcc e he kv (List.mem_of_find?_eq_some hg)

theorem summaryC_eq (sq : ℚ → ℚ) {data : HistData} (h : data ≠ []) :
    get_summary_statisticsC sq data = some (get_summary_statistics sq data) := by
  unfold get_summary_statisticsC get_summary_statistics
  refine opt_all_eq _ _ _ fun d _ => ?_
  dsimp only
  rw [qmeanC_of_ne (colVals_ne_nil h d), Option.some_bind,
    qmedianC_of_ne (colVals_ne_nil h d), Option.some_bind,
    percentileC_of (colVals_ne_nil h d) 25 (by norm_num) (by norm_num), Option.some_bind,
    percentileC_of (colVals_ne_nil h d) 75 (by norm_num) (by norm_num), Option.some_bind,
    percentileC_of (colVals_ne_nil h d) 90 (by norm_num) (by norm_num)]
  rfl

/-- C8: over any well-formed Observation Dataset every method of the Forecast
Engine is total: the checked variants, which fail exactly where the Python
source would raise, succeed for every department, round, window, lookback and
horizon — degenerate inputs take the documented fallbacks instead of failing —
and `detect_surge` and `calculate_capacity_recommendations` succeed for every
forecast map, in-range percentile, and capacity configuration with non-zero
staffing ratios, each returning the value of the total embedding. -/
theorem methods_total (sq : ℚ → ℚ) (data : HistData) (hwf : WellFormed data) :
    (∀ dept r w, moving_average_forecastC data dept r w =
      some (moving_average_forecast data dept r w)) ∧
    (∀ dept r, time_based_forecastC sq data dept r =
      some (time_based_forecast sq data dept r)) ∧
    (∀ dept r lb, trend_forecastC data dept r lb =
      some (trend_forecast data dept r lb)) ∧
    (∀ dept r, ensemble_forecastC sq data dept r =
      some (ensemble_forecast sq data dept r)) ∧
    (∀ r, forecast_all_departmentsC sq data r =
      some (forecast_all_departments sq data r)) ∧
    (∀ r n, forecast_next_n_roundsC sq data r n =
      some (forecast_next_n_rounds sq data r n)) ∧
    (∀ fd p, 0 ≤ p → p ≤ 100 →
      detect_surgeC data fd p = some (detect_surge data fd p)) ∧
    (∀ fc cc, (∀ e ∈ cc, ∀ kv ∈ e.2, kv.2 ≠ 0) →
      calculate_capacity_recommendationsC fc cc =
        some (calculate_capacity_recommendations fc cc)) ∧
    get_summary_statisticsC sq data = some (get_summary_statistics sq data) := by
  obtain ⟨h, -⟩ := hwf
  exact ⟨fun dept r w => maC_eq h dept r w,
    fun dept r => tbC_eq sq h dept r,
    fun dept r lb => trendC_eq h dept r lb,
    fun dept r => ensembleC_eq sq h dept r,
    fun r => forecast_allC_eq sq h r,
    fun r n => nextNC_eq sq h r n,
    fun fd p h0 h100 => surgeC_eq h fd p h0 h100,
    fun fc cc hcc => capC_eq fc cc hcc,
    summaryC_eq sq h⟩

/-- C8 witness: several methods instantiated on the well-formed `demo` store. -/
theorem methods_total_witness :
    moving_average_forecastC demo .emergency_walkin 5 3 =
      some (moving_average_forecast demo .emergency_walkin 5 3) ∧
    detect_surgeC demo [(.surgery, FVal.scalar 3)] 75 =
      some (detect_surge demo [(.surgery, FVal.scalar 3)] 75) ∧
    calculate_capacity_recommendationsC cexForecasts cexConfig =
      some (calculate_capacity_recommendations cexForecasts cexConfig) ∧
    get_summary_statisticsC sq0 demo = some (get_summary_statistics sq0 demo) := by
  have h := methods_total sq0 demo ⟨by decide, by unfold ContiguousRounds; decide⟩
  exact ⟨h.1 _ _ _,
    h.2.2.2.2.2.2.1 _ _ (by norm_num) (by norm_num),
    h.2.2.2.2.2.2.2.1 _ _ (by norm_num [cexConfig]),
    h.2.2.2.2.2.2.2.2⟩
